import Mathlib

/-!
Verification of the MobileTouch repair-service log-monitoring core
(`mobile_touch_log_parsing.py`) against its natural-language specification.

The Python module is shallowly embedded below.  Pure helpers become Lean
functions on `List Char` / `String`; the stateful monitor loop and the
dispatch policy become explicit state-passing functions; fallible parsing
returns `Option`.  Wall-clock times read by `datetime.datetime.now()` are
passed in as explicit parameters (all `now()` calls inside one dispatch of a
single entry are modelled as the same instant).  Cooldown arithmetic, which
the source performs on real-valued `timedelta.total_seconds()`, is modelled
over `Int` seconds; all thresholds in the source are integral.
Character classes (`\d`, `\s`, `.upper()`) are modelled on their ASCII
fragment, which covers every string the program manipulates.
-/

/-! ## Basic string machinery -/

/-- Is `c` an ASCII decimal digit (the characters matched by the `\d` and
`[0-9]` classes in the `strptime` regexes, restricted to ASCII). -/
def isDigitC (c : Char) : Bool :=
  '0' ≤ c && c ≤ '9'

/-- Numeric value of a digit character. -/
def dVal (c : Char) : Nat :=
  c.toNat - 48

/-- ASCII whitespace, the fragment of Python's `\s` class that can occur in
the strings this program manipulates. -/
def isSpaceC (c : Char) : Bool :=
  c = ' ' || c = '\t' || c = '\n' || c = '\r' || c = '\x0b' || c = '\x0c'

/-- Maximal prefix of decimal digits, together with the rest of the input. -/
def takeDigits : List Char → List Char × List Char
  | [] => ([], [])
  | c :: cs =>
    if isDigitC c then
      let p := takeDigits cs
      (c :: p.1, p.2)
    else ([], c :: cs)

/-- Value of a digit string, most significant digit first. -/
def digitsToNat (l : List Char) : Nat :=
  l.foldl (fun acc c => acc * 10 + dVal c) 0

/-- The `isPrefixOfL n h` is true when `n` is a prefix of `h`. -/
def isPrefixOfL : List Char → List Char → Bool
  | [], _ => true
  | _ :: _, [] => false
  | a :: as, b :: bs => a = b && isPrefixOfL as bs

/-- The `isInfixOfL n h` is true when `n` occurs contiguously inside `h`;
this is the semantics of Python's `needle in haystack` on strings. -/
def isInfixOfL (n : List Char) : List Char → Bool
  | [] => isPrefixOfL n []
  | b :: bs => isPrefixOfL n (b :: bs) || isInfixOfL n bs

/-- Python's `needle in haystack` for strings. -/
def pyIn (needle haystack : String) : Bool :=
  isInfixOfL needle.data haystack.data

/-- Split off the part of `s` before its first space character; `none` when
`s` contains no space. -/
def breakAtSpace : List Char → Option (List Char × List Char)
  | [] => none
  | c :: cs =>
    if c = ' ' then some ([], cs)
    else match breakAtSpace cs with
      | none => none
      | some p => some (c :: p.1, p.2)

/-- Python's `s.split(' ', maxsplit)`: split on each single space character,
performing at most `maxsplit` splits, keeping empty segments. -/
def pySplit (s : List Char) : Nat → List (List Char)
  | 0 => [s]
  | n + 1 =>
    match breakAtSpace s with
    | none => [s]
    | some p => p.1 :: pySplit p.2 n

/-! ## TriggerString (mobile_touch_log_parsing.py lines 44-101) -/

/-- The `TriggerString` enum, in its declared member order. -/
inductive Trigger
  | FAILED_GET_REFERENCE_TABLES
  | FAILED_GET_DEVICE_INFO
  | CORRUPT_SCHEMA
  | STORES_NOT_CORRECTLY_SET_UP
  | DEVICE_ID_MISMATCH
  | UNKNOWN
deriving DecidableEq

/-- The `TriggerString` member values: the literal match substrings searched
for inside log messages. -/
def Trigger.value : Trigger → String
  | .FAILED_GET_REFERENCE_TABLES => "storeAction() fail: LoadAll:getAllReferenceTables"
  | .FAILED_GET_DEVICE_INFO => "storeAction() fail: LoadByKey:getDeviceInfo"
  | .CORRUPT_SCHEMA => "init schema: error: Internal error"
  | .STORES_NOT_CORRECTLY_SET_UP => "Stores not correctly set up, db"
  | .DEVICE_ID_MISMATCH => "Error: Device configuration corrupt - device ID mismatch (3)"
  | .UNKNOWN => "UNKNOWN"

/-- The `TriggerString` member names (Python `trigger.name`). -/
def Trigger.pyName : Trigger → String
  | .FAILED_GET_REFERENCE_TABLES => "FAILED_GET_REFERENCE_TABLES"
  | .FAILED_GET_DEVICE_INFO => "FAILED_GET_DEVICE_INFO"
  | .CORRUPT_SCHEMA => "CORRUPT_SCHEMA"
  | .STORES_NOT_CORRECTLY_SET_UP => "STORES_NOT_CORRECTLY_SET_UP"
  | .DEVICE_ID_MISMATCH => "DEVICE_ID_MISMATCH"
  | .UNKNOWN => "UNKNOWN"

/-- Iteration order of `for trigger in TriggerString`: enum definition order. -/
def triggerOrder : List Trigger :=
  [.FAILED_GET_REFERENCE_TABLES, .FAILED_GET_DEVICE_INFO, .CORRUPT_SCHEMA,
   .STORES_NOT_CORRECTLY_SET_UP, .DEVICE_ID_MISMATCH, .UNKNOWN]

/-- The `TriggerString.from_message` (lines 91-101): iterates the members in
declaration order and returns the first whose NAME (`trigger.name`, not its
value) occurs in the message; `UNKNOWN` when none does. -/
def Trigger.from_message (message : String) : Trigger :=
  match triggerOrder.find? (fun t => pyIn t.pyName message) with
  | some t => t
  | none => .UNKNOWN

/-- The trigger selected by the scan loop of `check_trigger_strings`
(lines 319-320): the first member in declaration order whose VALUE occurs
in the message, if any. -/
def first_value_match (message : String) : Option Trigger :=
  triggerOrder.find? (fun t => pyIn t.value message)

/-! ## LogLevel (lines 103-133) -/

/-- The `LogLevel` enum. -/
inductive LogLevel
  | DEBUG
  | INFO
  | WARNING
  | ERROR
  | CRITICAL
deriving DecidableEq

/-- The `LogLevel` member values, which are also what `str(level)` prints. -/
def LogLevel.value : LogLevel → String
  | .DEBUG => "DEBUG"
  | .INFO => "INFO"
  | .WARNING => "WARNING"
  | .ERROR => "ERROR"
  | .CRITICAL => "CRITICAL"

/-- Lookup of a `LogLevel` member by name, `LogLevel[s]`. -/
def LogLevel.fromName (s : String) : Option LogLevel :=
  if s = "DEBUG" then some .DEBUG
  else if s = "INFO" then some .INFO
  else if s = "WARNING" then some .WARNING
  else if s = "ERROR" then some .ERROR
  else if s = "CRITICAL" then some .CRITICAL
  else none

/-- Python `str.upper()` on the ASCII letters. -/
def pyUpper (s : String) : String :=
  String.mk (s.data.map Char.toUpper)

/-- The `LogLevel.from_string` (lines 116-130): the exact token `SEVERE` maps to
`ERROR`; otherwise the upper-cased token is looked up among the member
names, and a failed lookup (`KeyError`) falls back to `INFO`. -/
def LogLevel.from_string (level : String) : LogLevel :=
  if level = "SEVERE" then .ERROR
  else match LogLevel.fromName (pyUpper level) with
    | some l => l
    | none => .INFO

/-! ## Timestamps

`LogEntry.__init__` calls
`datetime.datetime.strptime(timestamp, '%Y-%m-%d %H:%M:%S,%f')`.
CPython's `_strptime` compiles this format to a regex in which
`%Y = \d{4}`, `%m = 1[0-2]|0[1-9]|[1-9]`, `%d = 3[01]|[12]\d|0[1-9]|[1-9]`,
`%H = 2[0-3]|[0-1]\d|\d`, `%M = [0-5]\d|\d`, `%S = 6[0-1]|[0-5]\d|\d`,
`%f = [0-9]{1,6}`, a literal space becomes `\s+`, and the whole input must
be consumed.  Every numeric field is an alternation of digit-only branches
followed in the format by a non-digit delimiter (or end of input), so a
field necessarily consumes the entire maximal digit run in front of it;
the alternations above are then equivalent to the length/value-range checks
used below.  The parsed values are finally passed to the `datetime`
constructor, which additionally requires `1 <= year`, a day valid for the
month (so `%S`'s leap-second branch `60|61` and impossible calendar days
still raise `ValueError`).  The fraction is right-padded to six digits,
i.e. it denotes microseconds after scaling by `10^(6-len)`. -/

/-- A parsed timestamp: the fields of a Python `datetime`. -/
structure DateTime where
  year : Nat
  month : Nat
  day : Nat
  hour : Nat
  minute : Nat
  second : Nat
  microsecond : Nat
deriving DecidableEq

/-- Mixed-radix key realising Python's field-lexicographic `datetime`
comparison (the radixes strictly bound each field's valid range, so on
valid datetimes key order is exactly lexicographic field order). -/
def DateTime.key (t : DateTime) : Nat :=
  ((((t.year * 13 + t.month) * 32 + t.day) * 24 + t.hour) * 60 + t.minute) * 60 * 1000000
    + t.second * 1000000 + t.microsecond

/-- Is `y` a leap year (Gregorian, as in Python's `calendar`/`datetime`). -/
def isLeapYear (y : Nat) : Bool :=
  y % 4 = 0 && (y % 100 ≠ 0 || y % 400 = 0)

/-- Days in a month, as enforced by the `datetime` constructor. -/
def daysInMonth (y m : Nat) : Nat :=
  if m = 2 then (if isLeapYear y then 29 else 28)
  else if m = 4 || m = 6 || m = 9 || m = 11 then 30
  else 31

/-- Consume one expected character. -/
def expectChar (c : Char) : List Char → Option (List Char)
  | [] => none
  | x :: xs => if x = c then some xs else none

/-- Consume a nonempty run of whitespace (the `\s+` a literal format space
compiles to). -/
def takeSpaces1 (l : List Char) : Option (List Char) :=
  match l with
  | [] => none
  | c :: cs =>
    if isSpaceC c then
      some ((cs.dropWhile isSpaceC))
    else none

/-- The `datetime.datetime.strptime(s, '%Y-%m-%d %H:%M:%S,%f')`, per the
semantics derived above; `none` models the `ValueError`. -/
def parse_timestamp (s : String) : Option DateTime :=
  let p0 := takeDigits s.data
  let y := digitsToNat p0.1
  if p0.1.length = 4 && 1 ≤ y then
    match expectChar '-' p0.2 with
    | none => none
    | some r1 =>
      let p1 := takeDigits r1
      let mo := digitsToNat p1.1
      if (p1.1.length = 1 || p1.1.length = 2) && 1 ≤ mo && mo ≤ 12 then
        match expectChar '-' p1.2 with
        | none => none
        | some r2 =>
          let p2 := takeDigits r2
          let d := digitsToNat p2.1
          if (p2.1.length = 1 || p2.1.length = 2) && 1 ≤ d && d ≤ daysInMonth y mo then
            match takeSpaces1 p2.2 with
            | none => none
            | some r3 =>
              let p3 := takeDigits r3
              let h := digitsToNat p3.1
              if (p3.1.length = 1 || p3.1.length = 2) && h ≤ 23 then
                match expectChar ':' p3.2 with
                | none => none
                | some r4 =>
                  let p4 := takeDigits r4
                  let mi := digitsToNat p4.1
                  if (p4.1.length = 1 || p4.1.length = 2) && mi ≤ 59 then
                    match expectChar ':' p4.2 with
                    | none => none
                    | some r5 =>
                      let p5 := takeDigits r5
                      let sec := digitsToNat p5.1
                      if (p5.1.length = 1 || p5.1.length = 2) && sec ≤ 59 then
                        match expectChar ',' p5.2 with
                        | none => none
                        | some r6 =>
                          let p6 := takeDigits r6
                          let f := digitsToNat p6.1
                          if 1 ≤ p6.1.length && p6.1.length ≤ 6 && p6.2 = [] then
                            some ⟨y, mo, d, h, mi, sec, f * 10 ^ (6 - p6.1.length)⟩
                          else none
                      else none
                  else none
              else none
          else none
      else none
  else none

/-! ## LogEntry (lines 136-172) -/

/-- A parsed log entry. -/
structure LogEntry where
  timestamp : DateTime
  level : LogLevel
  message : String
deriving DecidableEq

/-- The `LogEntry.__init__` (lines 143-151): parse the timestamp string
(`ValueError`, i.e. `none`, on failure); an empty (falsy) level string
yields `INFO`, otherwise the level is resolved by `LogLevel.from_string`;
the message is stored verbatim. -/
def LogEntry.mk? (timestamp level message : String) : Option LogEntry :=
  match parse_timestamp timestamp with
  | none => none
  | some t =>
    some ⟨t, if level = "" then .INFO else LogLevel.from_string level, message⟩

/-- Digit character for a value below ten. -/
def dChar : Nat → Char
  | 0 => '0'
  | 1 => '1'
  | 2 => '2'
  | 3 => '3'
  | 4 => '4'
  | 5 => '5'
  | 6 => '6'
  | 7 => '7'
  | 8 => '8'
  | 9 => '9'
  | _ => '0'

/-- Two-digit zero-padded decimal string. -/
def pad2 (n : Nat) : List Char :=
  [dChar (n / 10 % 10), dChar (n % 10)]

/-- Three-digit zero-padded decimal string. -/
def pad3 (n : Nat) : List Char :=
  [dChar (n / 100 % 10), dChar (n / 10 % 10), dChar (n % 10)]

/-- Four-digit zero-padded decimal string. -/
def pad4 (n : Nat) : List Char :=
  [dChar (n / 1000 % 10), dChar (n / 100 % 10), dChar (n / 10 % 10), dChar (n % 10)]

/-- Six-digit zero-padded decimal string. -/
def pad6 (n : Nat) : List Char :=
  [dChar (n / 100000 % 10), dChar (n / 10000 % 10), dChar (n / 1000 % 10),
   dChar (n / 100 % 10), dChar (n / 10 % 10), dChar (n % 10)]

/-- The `datetime.strftime(ts, '%Y-%m-%d %H:%M:%S,%f')`: every numeric field is
zero-padded, `%f` to six digits.  (Formatting of years below 1000 is
platform-dependent in CPython and is not modelled; the round-trip theorem
below assumes `1000 ≤ year`.) -/
def format_timestamp (t : DateTime) : List Char :=
  pad4 t.year ++ ('-' :: (pad2 t.month ++ ('-' :: (pad2 t.day ++ (' ' :: (pad2 t.hour ++ (':' :: (pad2 t.minute ++ (':' :: (pad2 t.second ++ (',' :: (pad6 t.microsecond))))))))))))

/-- Python `s[:-3]`: drop the last three characters. -/
def dropLast3 (l : List Char) : List Char :=
  l.take (l.length - 3)

/-- The `LogEntry.__str__` (lines 153-154): the strftime-formatted timestamp with
its microsecond field truncated to milliseconds, then the level value, then
the message, space-separated. -/
def LogEntry.str (e : LogEntry) : String :=
  String.mk (dropLast3 (format_timestamp e.timestamp)) ++ " " ++ e.level.value
    ++ " " ++ e.message

/-- The `log_entry_from_line` (lines 157-172): split the line on single spaces
with `maxsplit = 3`; fewer than four segments is a `ValueError`; otherwise
the first two segments joined by one space form the timestamp string, the
third is the level and the fourth (the remainder, spaces included) the
message. -/
def log_entry_from_line (line : String) : Option LogEntry :=
  let parts := pySplit line.data 3
  if parts.length < 4 then none
  else
    LogEntry.mk?
      (String.mk (parts.getD 0 []) ++ " " ++ String.mk (parts.getD 1 []))
      (String.mk (parts.getD 2 []))
      (String.mk (parts.getD 3 []))

/-! ## parse_log (lines 195-218)

`read_log_file` returns the (stripped) lines of the file, or `[]` when the
file is missing; the `lines` parameter below stands for that result.
`datetime.datetime.now() - datetime.timedelta(hours=2)` is evaluated once
per call; the resulting cutoff instant is the `cutoff_date` parameter. -/

/-- The scan loop of `parse_log` over the reversed line list: skip lines
that fail to parse, stop at the first parsed entry older than the cutoff,
collect the rest. -/
def parseLoop (cutoff_date : DateTime) : List String → List LogEntry
  | [] => []
  | line :: rest =>
    match log_entry_from_line line with
    | none => parseLoop cutoff_date rest
    | some entry =>
      if entry.timestamp.key < cutoff_date.key then []
      else entry :: parseLoop cutoff_date rest

/-- The `parse_log`: scan the lines from the end backward. -/
def parse_log (lines : List String) (cutoff_date : DateTime) : List LogEntry :=
  parseLoop cutoff_date lines.reverse

/-! ## Dispatch policy: send_notification and check_trigger_strings
(lines 264-340)

The two module-level trackers `_last_notification_time` and
`_last_callback_time` form the dispatch state.  Times are seconds as `Int`.
`NOTIFICATIONS_AVAILABLE`, whether `notify` itself raises, which triggers
have a registered callback, and whether a trigger's callback raises are
environment facts passed as parameters. -/

/-- The module-level cooldown trackers. -/
structure DispatchState where
  last_notification_time : Int
  last_callback_time : Int
deriving DecidableEq

/-- The `send_notification` (lines 264-303): skip when notifications are
unavailable or the last notification was under 30 seconds ago; otherwise
call `notify` — on success update the tracker and return `True`, on an
exception return `False` with the tracker unchanged. -/
def send_notification (notificationsAvailable notifySucceeds : Bool)
    (now : Int) (st : DispatchState) : Bool × DispatchState :=
  if !notificationsAvailable then (false, st)
  else if now - st.last_notification_time < 30 then (false, st)
  else if notifySucceeds then
    (true, { st with last_notification_time := now })
  else (false, st)

/-- Observable outcome of one `check_trigger_strings` call. -/
structure DispatchResult where
  /-- The Python return value; `none` models an exception raised by the
  trigger's callback propagating out of the call. -/
  result : Option Bool
  /-- Whether `send_notification` was called at all. -/
  notifRequested : Bool
  /-- Whether `send_notification` actually sent (returned `True`). -/
  notifSent : Bool
  /-- The trigger whose callback was invoked, if any. -/
  invoked : Option Trigger
  /-- The trackers when the call ends (normally or by exception). -/
  state : DispatchState
deriving DecidableEq

/-- The `check_trigger_strings` (lines 306-340).  The `for` loop stops at the
first trigger whose value occurs in the entry's message.  With no
registered callback it returns `True` at once.  With one, if the last
callback was under 15 seconds ago the loop `break`s and the function
returns `False`; otherwise it calls `send_notification`, then advances
`_last_callback_time`, then invokes the callback (whose exception, if any,
escapes only after both updates). -/
def check_trigger_strings (registered : Trigger → Bool) (raises : Trigger → Bool)
    (notificationsAvailable notifySucceeds : Bool) (now : Int)
    (st : DispatchState) (entry : LogEntry) : DispatchResult :=
  match first_value_match entry.message with
  | none => ⟨some false, false, false, none, st⟩
  | some t =>
    if registered t then
      if now - st.last_callback_time < 15 then
        ⟨some false, false, false, none, st⟩
      else
        let p := send_notification notificationsAvailable notifySucceeds now st
        let st2 := { p.2 with last_callback_time := now }
        if raises t then ⟨none, true, p.1, some t, st2⟩
        else ⟨some true, true, p.1, some t, st2⟩
    else ⟨some true, false, false, none, st⟩

/-- Run `check_trigger_strings` over a sequence of detected occurrences
`(time, entry)`, threading the trackers; callbacks are assumed to return
normally.  Produces the final state and, per occurrence, whether the
trigger's callback was invoked. -/
def runOccurrences (registered : Trigger → Bool)
    (notificationsAvailable notifySucceeds : Bool) (st : DispatchState) :
    List (Int × LogEntry) → DispatchState × List Bool
  | [] => (st, [])
  | (t, e) :: rest =>
    let r := check_trigger_strings registered (fun _ => false)
      notificationsAvailable notifySucceeds t st e
    let p := runOccurrences registered notificationsAvailable notifySucceeds r.state rest
    (p.1, r.invoked.isSome :: p.2)

/-! ## Monitor loop (lines 365-450)

One iteration of the `while` body is the function `pollStep` below.  What
the file system returns at each iteration — `check_last_modified`'s result
and the entries `parse_log` would produce — is one `PollObs`.  Exceptions
from callbacks are not modelled here (executions in which no callback
raises).  The loop condition is only the stop event, so a finite run of the
loop processes one observation per iteration until cancellation; `main_loop`
models a run that is cancelled after the given observations. -/

/-- The loop-local monitor state. -/
structure MonitorState where
  last_modified : DateTime
  last_seen_log_entry : Option LogEntry
  consecutive_failures : Nat
deriving DecidableEq

/-- The `datetime.datetime.fromtimestamp(0)` rendered as the epoch instant (the
source runs in a fixed local timezone; only its ordering below any real
file mtime matters). -/
def epochDT : DateTime :=
  ⟨1970, 1, 1, 0, 0, 0, 0⟩

/-- Initial monitor state (lines 379-381). -/
def initMonitorState : MonitorState :=
  ⟨epochDT, none, 0⟩

/-- What one iteration observes from the outside world. -/
structure PollObs where
  /-- The `check_last_modified(log_file)`: `none` when the file is missing. -/
  mtime : Option DateTime
  /-- What `parse_log(log_file)` returns at this iteration (newest first). -/
  entries : List LogEntry
deriving DecidableEq

/-- Observable outcome of one loop iteration. -/
structure PollOutcome where
  state : MonitorState
  /-- The entries passed to `check_trigger_strings`, in dispatch order. -/
  dispatched : List LogEntry
  /-- Seconds slept at the end of this iteration (`0` for `continue` paths
  that skip the `else: time.sleep(base_delay)`). -/
  delay : Nat
  /-- Whether this iteration performed the initial load (and set
  `logs_loaded_event`). -/
  initialLoad : Bool
deriving DecidableEq

/-- One iteration of the `while` body (lines 392-450), with
`base_delay = 1` and `max_delay = 10`. -/
def pollStep (st : MonitorState) (obs : PollObs) : PollOutcome :=
  match obs.mtime with
  | none =>
    let cf := st.consecutive_failures + 1
    ⟨{ st with consecutive_failures := cf }, [], min (1 * cf) 10, false⟩
  | some m =>
    let st0 : MonitorState := { st with consecutive_failures := 0 }
    if st0.last_modified.key < m.key then
      let st1 : MonitorState := { st0 with last_modified := m }
      match obs.entries with
      | [] => ⟨st1, [], 0, false⟩
      | e0 :: _ =>
        match st1.last_seen_log_entry with
        | none =>
          ⟨{ st1 with last_seen_log_entry := some e0 }, [], 1, true⟩
        | some lastSeen =>
          let new_entries := obs.entries.filter
            (fun e => lastSeen.timestamp.key ≤ e.timestamp.key)
          match new_entries with
          | [] => ⟨st1, [], 1, false⟩
          | ne0 :: _ =>
            ⟨{ st1 with last_seen_log_entry := some ne0 }, new_entries, 1, false⟩
    else ⟨st0, [], 1, false⟩

/-- Iterate `pollStep`, collecting every iteration's outcome. -/
def runPolls (st : MonitorState) : List PollObs → List PollOutcome
  | [] => []
  | o :: os =>
    let out := pollStep st o
    out :: runPolls out.state os

/-- How a `main_loop` call ends. -/
inductive LoopExit
  /-- The pre-loop existence check failed and the function returned
  (lines 386-388). -/
  | earlyReturn
  /-- The stop event was observed set at the top of the `while` loop. -/
  | stoppedByEvent
deriving DecidableEq

/-- The `main_loop` (lines 365-450) on a finite schedule: if the log file does
not exist at startup the function returns at once, before entering the
loop; otherwise it runs one iteration per observation and then observes the
stop event set. -/
def main_loop (fileExistsAtStart : Bool) (polls : List PollObs) :
    LoopExit × List PollOutcome :=
  if fileExistsAtStart then (.stoppedByEvent, runPolls initMonitorState polls)
  else (.earlyReturn, [])

/-! ## Spec-side definitions used for comparison -/

/-- Modelled from the spec: a timestamp string "matching the fixed timestamp
format `YYYY-MM-DD HH:MM:SS,mmm`" — four digits, dash, two digits, dash,
two digits, one space, two digits, colon, two digits, colon, two digits,
comma, three digits, and nothing else.  (Purely the textual shape the
spec's format line describes; used to compare the spec's wording with the
parser actually implemented.) -/
def specFixedFormat (ts : String) : Bool :=
  match ts.data with
  | [y1, y2, y3, y4, a1, m1, m2, a2, d1, d2, a3, h1, h2, a4, mi1, mi2, a5,
     s1, s2, a6, f1, f2, f3] =>
    isDigitC y1 && isDigitC y2 && isDigitC y3 && isDigitC y4 && a1 = '-' &&
    isDigitC m1 && isDigitC m2 && a2 = '-' && isDigitC d1 && isDigitC d2 &&
    a3 = ' ' && isDigitC h1 && isDigitC h2 && a4 = ':' && isDigitC mi1 &&
    isDigitC mi2 && a5 = ':' && isDigitC s1 && isDigitC s2 && a6 = ',' &&
    isDigitC f1 && isDigitC f2 && isDigitC f3
  | _ => false

/-- A well-formed log line in the fixed format
`YYYY-MM-DD HH:MM:SS,mmm LEVEL message`, with all numeric fields
zero-padded and the level token one of the five canonical `LogLevel`
values. -/
def mkLogLine (y mo d h mi s ms : Nat) (level : LogLevel) (message : String) :
    String :=
  String.mk (pad4 y ++ ('-' :: (pad2 mo ++ ('-' :: (pad2 d ++ (' ' :: (pad2 h ++ (':' :: (pad2 mi ++ (':' :: (pad2 s ++ (',' :: (pad3 ms)))))))))))))
    ++ " " ++ level.value ++ " " ++ message

/-- Does the first value-matching trigger of the entry's message have a
registered callback (i.e. is this entry a trigger occurrence that reaches
the dispatch policy)? -/
def matchesRegistered (registered : Trigger → Bool) (e : LogEntry) : Bool :=
  match first_value_match e.message with
  | some t => registered t
  | none => false

/-! ## Helper lemmas about the dispatch policy -/

/-- When the callback cooldown has not elapsed (or nothing matches, or the
matched trigger has no callback), `check_trigger_strings` invokes nothing
and leaves both trackers unchanged. -/
theorem check_skip_of_cooldown (registered raises : Trigger → Bool)
    (na ns : Bool) (now : Int) (st : DispatchState) (e : LogEntry)
    (h : now - st.last_callback_time < 15) :
    (check_trigger_strings registered raises na ns now st e).invoked = none ∧
      (check_trigger_strings registered raises na ns now st e).state = st := by
  unfold check_trigger_strings
  rcases hm : first_value_match e.message with _ | t
  · exact ⟨rfl, rfl⟩
  · simp only
    by_cases hr : registered t = true
    · simp [hr, h]
    · simp [hr]

/-- When the matched trigger has a callback and the cooldown has elapsed,
the callback is invoked and `_last_callback_time` is advanced to `now`. -/
theorem check_invoke_of_elapsed (registered raises : Trigger → Bool)
    (na ns : Bool) (now : Int) (st : DispatchState) (e : LogEntry) (t : Trigger)
    (hm : first_value_match e.message = some t) (hr : registered t = true)
    (h : ¬ now - st.last_callback_time < 15) :
    (check_trigger_strings registered raises na ns now st e).invoked = some t ∧
      (check_trigger_strings registered raises na ns now st e).notifRequested = true ∧
      (check_trigger_strings registered raises na ns now st e).state.last_callback_time
        = now := by
  unfold check_trigger_strings
  rw [hm]
  simp only [hr, if_true, h, if_false]
  by_cases hra : raises t = true <;> simp [hra]

/-- The `runOccurrences` over occurrences that all fall inside the cooldown
window of the current tracker invokes nothing and leaves the state alone. -/
theorem runOccurrences_all_skip (registered : Trigger → Bool) (na ns : Bool) :
    ∀ (occs : List (Int × LogEntry)) (st : DispatchState),
      (∀ p ∈ occs, p.1 - st.last_callback_time < 15) →
      runOccurrences registered na ns st occs
        = (st, List.replicate occs.length false) := by
  intro occs
  induction occs with
  | nil => intro st _; rfl
  | cons p rest ih =>
    intro st h
    obtain ⟨h1, h2⟩ := check_skip_of_cooldown registered (fun _ => false) na ns
      p.1 st p.2 (h p (List.mem_cons_self p rest))
    simp only [runOccurrences, h1, h2, Option.isSome_none,
      ih st (fun q hq => h q (List.mem_cons_of_mem p hq)), List.length_cons]
    rfl

/-- The `runOccurrences` over occurrences that each match a registered trigger
and are consecutively spaced more than 15 seconds apart (the first more
than 15 seconds after the tracker) invokes every callback. -/
theorem runOccurrences_all_invoke (registered : Trigger → Bool) (na ns : Bool) :
    ∀ (occs : List (Int × LogEntry)) (st : DispatchState),
      (∀ p ∈ occs, matchesRegistered registered p.2 = true) →
      List.Chain' (fun p q : Int × LogEntry => p.1 + 15 < q.1) occs →
      (∀ p ∈ occs.head?, st.last_callback_time + 15 ≤ p.1) →
      runOccurrences registered na ns st occs
        = ((runOccurrences registered na ns st occs).1,
            List.replicate occs.length true) := by
  intro occs
  induction occs with
  | nil => intro st _ _ _; rfl
  | cons p rest ih =>
    intro st hm hc hfirst
    have hmp := hm p (List.mem_cons_self p rest)
    unfold matchesRegistered at hmp
    rcases hfv : first_value_match p.2.message with _ | t
    · rw [hfv] at hmp; exact absurd hmp (by simp)
    · rw [hfv] at hmp
      have hgap : st.last_callback_time + 15 ≤ p.1 :=
        hfirst p (by simp)
      have hcool : ¬ p.1 - st.last_callback_time < 15 := by omega
      obtain ⟨h1, _, h3⟩ := check_invoke_of_elapsed registered (fun _ => false)
        na ns p.1 st p.2 t hfv hmp hcool
      have hrest := ih (check_trigger_strings registered (fun _ => false)
          na ns p.1 st p.2).state
        (fun q hq => hm q (List.mem_cons_of_mem p hq))
        (List.Chain'.tail hc)
        (by
          intro q hq
          rcases rest with _ | ⟨q0, rest'⟩
          · simp at hq
          · simp only [List.head?_cons, Option.mem_def, Option.some_inj] at hq
            subst hq
            have := (List.chain'_cons.mp hc).1
            omega)
      simp only [runOccurrences, h1, Option.isSome_some, List.length_cons]
      rw [hrest]
      rfl

/-- Claim C5 (confirmed): for a burst of `N ≥ 2` occurrences of registered
triggers within one 15-second callback-cooldown window (the tracker idle
beforehand), exactly one callback invocation occurs; for occurrences spaced
farther apart than the cooldown, every occurrence invokes its callback. -/
theorem c5_burst_and_spaced :
    (∀ (registered : Trigger → Bool) (na ns : Bool) (st : DispatchState)
        (t0 : Int) (e0 : LogEntry) (rest : List (Int × LogEntry)),
      matchesRegistered registered e0 = true →
      st.last_callback_time + 15 ≤ t0 →
      (∀ p ∈ rest, p.1 - t0 < 15) →
      ((runOccurrences registered na ns st ((t0, e0) :: rest)).2.count true)
        = 1) ∧
    (∀ (registered : Trigger → Bool) (na ns : Bool) (st : DispatchState)
        (occs : List (Int × LogEntry)),
      (∀ p ∈ occs, matchesRegistered registered p.2 = true) →
      List.Chain' (fun p q : Int × LogEntry => p.1 + 15 < q.1) occs →
      (∀ p ∈ occs.head?, st.last_callback_time + 15 ≤ p.1) →
      ((runOccurrences registered na ns st occs).2.count true)
        = occs.length) := by
  constructor
  · intro registered na ns st t0 e0 rest hm hidle hburst
    have hmp := hm
    unfold matchesRegistered at hmp
    rcases hfv : first_value_match e0.message with _ | t
    · rw [hfv] at hmp; exact absurd hmp (by simp)
    · rw [hfv] at hmp
      have hcool : ¬ t0 - st.last_callback_time < 15 := by omega
      obtain ⟨h1, _, h3⟩ := check_invoke_of_elapsed registered (fun _ => false)
        na ns t0 st e0 t hfv hmp hcool
      have hrest := runOccurrences_all_skip registered na ns rest
        (check_trigger_strings registered (fun _ => false) na ns t0 st e0).state
        (by intro q hq; rw [h3]; exact hburst q hq)
      simp only [runOccurrences, h1, Option.isSome_some]
      rw [hrest]
      simp [List.count_replicate]
  · intro registered na ns st occs hm hc hfirst
    have := runOccurrences_all_invoke registered na ns occs st hm hc hfirst
    rw [this]
    simp [List.count_replicate]

/-- Closed witness for C5: a burst of three occurrences of the corrupt-schema
trigger at `t = 100, 105, 110` after an idle tracker yields exactly one
invocation, and three occurrences at `t = 100, 120, 140` (gaps of 20 s)
yield three. -/
theorem c5_witness :
    ((runOccurrences (fun _ => true) true true ⟨0, 0⟩
        [(100, ⟨⟨2025, 1, 1, 0, 0, 0, 0⟩, .ERROR, "init schema: error: Internal error"⟩),
         (105, ⟨⟨2025, 1, 1, 0, 0, 5, 0⟩, .ERROR, "init schema: error: Internal error"⟩),
         (110, ⟨⟨2025, 1, 1, 0, 0, 10, 0⟩, .ERROR, "init schema: error: Internal error"⟩)]).2.count true)
      = 1 ∧
    ((runOccurrences (fun _ => true) true true ⟨0, 0⟩
        [(100, ⟨⟨2025, 1, 1, 0, 0, 0, 0⟩, .ERROR, "init schema: error: Internal error"⟩),
         (120, ⟨⟨2025, 1, 1, 0, 0, 20, 0⟩, .ERROR, "init schema: error: Internal error"⟩),
         (140, ⟨⟨2025, 1, 1, 0, 0, 40, 0⟩, .ERROR, "init schema: error: Internal error"⟩)]).2.count true)
      = 3 := by
  constructor
  · exact c5_burst_and_spaced.1 (fun _ => true) true true ⟨0, 0⟩ 100
      ⟨⟨2025, 1, 1, 0, 0, 0, 0⟩, .ERROR, "init schema: error: Internal error"⟩
      [(105, ⟨⟨2025, 1, 1, 0, 0, 5, 0⟩, .ERROR, "init schema: error: Internal error"⟩),
       (110, ⟨⟨2025, 1, 1, 0, 0, 10, 0⟩, .ERROR, "init schema: error: Internal error"⟩)]
      (by decide) (by decide) (by decide)
  · exact c5_burst_and_spaced.2 (fun _ => true) true true ⟨0, 0⟩
      [(100, ⟨⟨2025, 1, 1, 0, 0, 0, 0⟩, .ERROR, "init schema: error: Internal error"⟩),
       (120, ⟨⟨2025, 1, 1, 0, 0, 20, 0⟩, .ERROR, "init schema: error: Internal error"⟩),
       (140, ⟨⟨2025, 1, 1, 0, 0, 40, 0⟩, .ERROR, "init schema: error: Internal error"⟩)]
      (by decide) (by simp [List.chain'_cons]) (by decide)

/-- Claim C6 (code_bug): on the very message the enum defines as the
`FAILED_GET_REFERENCE_TABLES` match substring, `TriggerString.from_message`
returns `UNKNOWN`, because it tests `trigger.name in message` instead of
`trigger.value in message`; the trigger's literal match substring IS
contained in the message, and the scan actually used for dispatching
(`check_trigger_strings`, which tests the value) selects the trigger, as
the claim describes. -/
theorem c6_from_message_matches_names_not_values :
    Trigger.from_message "storeAction() fail: LoadAll:getAllReferenceTables"
      = Trigger.UNKNOWN ∧
    pyIn (Trigger.value .FAILED_GET_REFERENCE_TABLES)
      "storeAction() fail: LoadAll:getAllReferenceTables" = true ∧
    first_value_match "storeAction() fail: LoadAll:getAllReferenceTables"
      = some .FAILED_GET_REFERENCE_TABLES := by
  refine ⟨by decide, by decide, by decide⟩

/-- Claim C10 (confirmed): when the matched trigger has a registered
callback, the cooldown has elapsed, and the callback raises, the exception
propagates (`result = none`) but `_last_callback_time` has already been
advanced to `now` and the notification request has already been issued:
the dispatch step is not atomic with respect to callback failure. -/
theorem c10_tracker_and_notification_precede_callback
    (registered raises : Trigger → Bool) (na ns : Bool) (now : Int)
    (st : DispatchState) (e : LogEntry) (t : Trigger)
    (hm : first_value_match e.message = some t) (hr : registered t = true)
    (hcool : ¬ now - st.last_callback_time < 15) (hraise : raises t = true) :
    (check_trigger_strings registered raises na ns now st e).result = none ∧
      (check_trigger_strings registered raises na ns now st e).state.last_callback_time
        = now ∧
      (check_trigger_strings registered raises na ns now st e).notifRequested
        = true := by
  unfold check_trigger_strings
  rw [hm]
  simp [hr, hcool, hraise]

/-- Closed witness for C10: a corrupt-schema entry dispatched at `t = 100`
with an idle tracker and a raising callback. -/
theorem c10_witness :
    (check_trigger_strings (fun _ => true) (fun _ => true) true true 100 ⟨0, 0⟩
        ⟨⟨2025, 1, 1, 0, 0, 0, 0⟩, .ERROR, "init schema: error: Internal error"⟩).result
      = none ∧
    (check_trigger_strings (fun _ => true) (fun _ => true) true true 100 ⟨0, 0⟩
        ⟨⟨2025, 1, 1, 0, 0, 0, 0⟩, .ERROR, "init schema: error: Internal error"⟩).state.last_callback_time
      = 100 ∧
    (check_trigger_strings (fun _ => true) (fun _ => true) true true 100 ⟨0, 0⟩
        ⟨⟨2025, 1, 1, 0, 0, 0, 0⟩, .ERROR, "init schema: error: Internal error"⟩).notifRequested
      = true :=
  c10_tracker_and_notification_precede_callback (fun _ => true) (fun _ => true)
    true true 100 ⟨0, 0⟩
    ⟨⟨2025, 1, 1, 0, 0, 0, 0⟩, .ERROR, "init schema: error: Internal error"⟩
    .CORRUPT_SCHEMA (by decide) rfl (by decide) rfl

/-- Claim C2 counterexample: the decision to request a notification does NOT
depend only on the notification tracker.  Two dispatches of the same
corrupt-schema entry at the same time `now = 100` with the SAME notification
tracker (last notification at 0, 100 seconds ago, far beyond 30 s) differ:
with an idle callback tracker the notification is requested and sent, but
with a callback 10 seconds ago (callback cooldown active) no notification
is even requested — the notification decision is gated behind the callback
cooldown. -/
theorem c2_counterexample :
    (check_trigger_strings (fun _ => true) (fun _ => false) true true 100 ⟨0, 0⟩
        ⟨⟨2025, 1, 1, 0, 0, 0, 0⟩, .ERROR, "init schema: error: Internal error"⟩).notifSent
      = true ∧
    (check_trigger_strings (fun _ => true) (fun _ => false) true true 100 ⟨0, 90⟩
        ⟨⟨2025, 1, 1, 0, 0, 0, 0⟩, .ERROR, "init schema: error: Internal error"⟩).notifRequested
      = false ∧
    (check_trigger_strings (fun _ => true) (fun _ => false) true true 100 ⟨0, 90⟩
        ⟨⟨2025, 1, 1, 0, 0, 0, 0⟩, .ERROR, "init schema: error: Internal error"⟩).notifSent
      = false := by
  refine ⟨by decide, by decide, by decide⟩

/-- Claim C2 (corrected): the 30 s notification window and the 15 s callback
window are tracked separately, but they are nested, not independent: (a) the
callback decision depends only on the callback tracker (and the trigger
match/registration); (b) a notification can only fire on an occurrence that
also invokes the callback, so a notification never fires without a callback
invocation; (c) a callback can be invoked without a notification firing
(when the notification cooldown is still active). -/
theorem c2_cooldowns_nested_not_independent :
    (∀ (registered raises : Trigger → Bool) (na ns : Bool) (now : Int)
        (st : DispatchState) (e : LogEntry),
      ((check_trigger_strings registered raises na ns now st e).invoked).isSome
        = (matchesRegistered registered e
            && !decide (now - st.last_callback_time < 15))) ∧
    (∀ (registered raises : Trigger → Bool) (na ns : Bool) (now : Int)
        (st : DispatchState) (e : LogEntry),
      (check_trigger_strings registered raises na ns now st e).notifSent = true →
      ((check_trigger_strings registered raises na ns now st e).invoked).isSome
        = true) ∧
    (((check_trigger_strings (fun _ => true) (fun _ => false) true true 100
        ⟨95, 0⟩
        ⟨⟨2025, 1, 1, 0, 0, 0, 0⟩, .ERROR, "init schema: error: Internal error"⟩).invoked).isSome
      = true ∧
     (check_trigger_strings (fun _ => true) (fun _ => false) true true 100
        ⟨95, 0⟩
        ⟨⟨2025, 1, 1, 0, 0, 0, 0⟩, .ERROR, "init schema: error: Internal error"⟩).notifSent
      = false) := by
  refine ⟨?_, ?_, by decide, by decide⟩
  · intro registered raises na ns now st e
    unfold check_trigger_strings matchesRegistered
    rcases hm : first_value_match e.message with _ | t
    · simp
    · simp only
      by_cases hr : registered t = true
      · by_cases hcool : now - st.last_callback_time < 15
        · simp [hr, hcool]
        · by_cases hra : raises t = true <;> simp [hr, hcool, hra]
      · simp [hr]
  · intro registered raises na ns now st e hsent
    unfold check_trigger_strings at hsent ⊢
    rcases hm : first_value_match e.message with _ | t
    all_goals rw [hm] at hsent
    · simp at hsent
    · by_cases hr : registered t = true
      · by_cases hcool : now - st.last_callback_time < 15
        · simp [hr, hcool] at hsent
        · by_cases hra : raises t = true <;> simp [hr, hcool, hra]
      · simp [hr] at hsent

/-- Closed witness for C2's amended theorem, discharging its hypotheses at
the dispatch of a corrupt-schema entry with both cooldowns elapsed. -/
theorem c2_witness :
    ((check_trigger_strings (fun _ => true) (fun _ => false) true true 100 ⟨0, 0⟩
        ⟨⟨2025, 1, 1, 0, 0, 0, 0⟩, .ERROR, "init schema: error: Internal error"⟩).invoked).isSome
      = (matchesRegistered (fun _ => true)
          ⟨⟨2025, 1, 1, 0, 0, 0, 0⟩, .ERROR, "init schema: error: Internal error"⟩
          && !decide ((100 : Int) - (0 : Int) < 15)) ∧
    ((check_trigger_strings (fun _ => true) (fun _ => false) true true 100 ⟨0, 0⟩
        ⟨⟨2025, 1, 1, 0, 0, 0, 0⟩, .ERROR, "init schema: error: Internal error"⟩).invoked).isSome
      = true :=
  ⟨c2_cooldowns_nested_not_independent.1 (fun _ => true) (fun _ => false)
      true true 100 ⟨0, 0⟩
      ⟨⟨2025, 1, 1, 0, 0, 0, 0⟩, .ERROR, "init schema: error: Internal error"⟩,
   c2_cooldowns_nested_not_independent.2.1 (fun _ => true) (fun _ => false)
      true true 100 ⟨0, 0⟩
      ⟨⟨2025, 1, 1, 0, 0, 0, 0⟩, .ERROR, "init schema: error: Internal error"⟩
      (by decide)⟩

/-- The `runPolls` produces exactly one outcome per observation. -/
theorem runPolls_length (polls : List PollObs) :
    ∀ st : MonitorState, (runPolls st polls).length = polls.length := by
  induction polls with
  | nil => intro st; rfl
  | cons o os ih => intro st; simp [runPolls, ih]

/-- On a run of consecutive file-absent observations the loop keeps
iterating: the `i`-th iteration only increments the failure counter and
sleeps `min(base_delay * count, max_delay)` seconds. -/
theorem runPolls_absent (k : Nat) :
    ∀ (st : MonitorState) (i : Nat), i < k →
      (runPolls st (List.replicate k ⟨none, []⟩))[i]?
        = some ⟨⟨st.last_modified, st.last_seen_log_entry,
                  st.consecutive_failures + i + 1⟩, [],
                min (st.consecutive_failures + i + 1) 10, false⟩ := by
  induction k with
  | zero => intro st i h; omega
  | succ k ih =>
    intro st i h
    rcases i with _ | i
    · simp [List.replicate_succ, runPolls, pollStep]
    · have := ih ⟨st.last_modified, st.last_seen_log_entry,
        st.consecutive_failures + 1⟩ i (by omega)
      simp only [List.replicate_succ, runPolls, pollStep, List.getElem?_cons_succ]
      simp only [pollStep] at this ⊢
      have harith : st.consecutive_failures + 1 + i + 1
          = st.consecutive_failures + (i + 1) + 1 := by omega
      rw [this, harith]

/-- Claim C1 counterexample: when the log file is absent at the very first
check, `main_loop` hits the pre-loop existence validation (lines 386-388)
and returns immediately — no iteration, no retry, no backoff — even though
observations (here two more absences) were still pending and the stop
event was never set.  This contradicts the claim's "regardless of whether
the absence holds from the very first poll". -/
theorem c1_counterexample :
    main_loop false [⟨none, []⟩, ⟨none, []⟩] = (.earlyReturn, []) := by
  rfl

/-- Claim C1 (corrected): once the monitor loop has started (the log file
existed at startup), the only terminal exit is the cancellation signal:
every observed poll is processed, and any run of consecutive file-absent
polls only increments the failure counter, sleeping `min(count, 10)`
seconds (capped backoff), for any number of consecutive absences.  However,
when the file is absent at the very first check, `main_loop` returns
immediately without entering the loop. -/
theorem c1_monitor_loop_exit :
    (∀ polls : List PollObs,
      (main_loop true polls).1 = .stoppedByEvent ∧
        (main_loop true polls).2.length = polls.length) ∧
    (∀ (st : MonitorState) (obs : PollObs), obs.mtime = none →
      (pollStep st obs).delay = min (st.consecutive_failures + 1) 10 ∧
        (pollStep st obs).delay ≤ 10) ∧
    (∀ k i : Nat, i < k →
      ((main_loop true (List.replicate k ⟨none, []⟩)).2)[i]?
        = some ⟨⟨epochDT, none, i + 1⟩, [], min (i + 1) 10, false⟩) := by
  refine ⟨?_, ?_, ?_⟩
  · intro polls
    exact ⟨rfl, runPolls_length polls initMonitorState⟩
  · intro st obs h
    rcases obs with ⟨mt, es⟩
    simp only at h
    subst h
    constructor
    · simp [pollStep]
    · simp only [pollStep, one_mul]
      exact min_le_right _ _
  · intro k i h
    have := runPolls_absent k initMonitorState i h
    simpa [main_loop, initMonitorState] using this

/-- Closed witness for C1's corrected theorem: twelve consecutive absences
starting after entry into the loop; the twelfth delay is capped at 10. -/
theorem c1_witness :
    (main_loop true (List.replicate 12 (⟨none, []⟩ : PollObs))).1
        = .stoppedByEvent ∧
      (pollStep initMonitorState ⟨none, []⟩).delay = min 1 10 ∧
      ((main_loop true (List.replicate 12 (⟨none, []⟩ : PollObs))).2)[11]?
        = some ⟨⟨epochDT, none, 12⟩, [], min 12 10, false⟩ :=
  ⟨(c1_monitor_loop_exit.1 (List.replicate 12 ⟨none, []⟩)).1,
   (c1_monitor_loop_exit.2.1 initMonitorState ⟨none, []⟩ rfl).1,
   c1_monitor_loop_exit.2.2 12 11 (by decide)⟩

/-- The `pollStep` equation: file absent. -/
theorem pollStep_none (st : MonitorState) (es : List LogEntry) :
    pollStep st ⟨none, es⟩
      = ⟨⟨st.last_modified, st.last_seen_log_entry, st.consecutive_failures + 1⟩,
          [], min (1 * (st.consecutive_failures + 1)) 10, false⟩ := rfl

/-- The `pollStep` equation: modification time not newer than the last seen. -/
theorem pollStep_stale (st : MonitorState) (m : DateTime) (es : List LogEntry)
    (h : ¬ st.last_modified.key < m.key) :
    pollStep st ⟨some m, es⟩
      = ⟨⟨st.last_modified, st.last_seen_log_entry, 0⟩, [], 1, false⟩ := by
  simp [pollStep, h]

/-- The `pollStep` equation: file changed but `parse_log` found nothing. -/
theorem pollStep_fresh_nil (st : MonitorState) (m : DateTime)
    (h : st.last_modified.key < m.key) :
    pollStep st ⟨some m, []⟩
      = ⟨⟨m, st.last_seen_log_entry, 0⟩, [], 0, false⟩ := by
  simp [pollStep, h]

/-- The `pollStep` equation: initial load. -/
theorem pollStep_initial (st : MonitorState) (m : DateTime) (e0 : LogEntry)
    (rest : List LogEntry) (h : st.last_modified.key < m.key)
    (hls : st.last_seen_log_entry = none) :
    pollStep st ⟨some m, e0 :: rest⟩ = ⟨⟨m, some e0, 0⟩, [], 1, true⟩ := by
  simp [pollStep, h, hls]

/-- The `pollStep` equation: subsequent load with no entry at or after the
boundary. -/
theorem pollStep_dispatch_nil (st : MonitorState) (m : DateTime) (e0 : LogEntry)
    (rest : List LogEntry) (ls : LogEntry) (h : st.last_modified.key < m.key)
    (hls : st.last_seen_log_entry = some ls)
    (hne : (e0 :: rest).filter
        (fun e => ls.timestamp.key ≤ e.timestamp.key) = []) :
    pollStep st ⟨some m, e0 :: rest⟩ = ⟨⟨m, some ls, 0⟩, [], 1, false⟩ := by
  simp only [pollStep, h, if_true, hls]
  rw [hne]

/-- The `pollStep` equation: subsequent load dispatching the boundary subset. -/
theorem pollStep_dispatch_cons (st : MonitorState) (m : DateTime) (e0 : LogEntry)
    (rest : List LogEntry) (ls ne0 : LogEntry) (nrest : List LogEntry)
    (h : st.last_modified.key < m.key)
    (hls : st.last_seen_log_entry = some ls)
    (hne : (e0 :: rest).filter
        (fun e => ls.timestamp.key ≤ e.timestamp.key) = ne0 :: nrest) :
    pollStep st ⟨some m, e0 :: rest⟩
      = ⟨⟨m, some ne0, 0⟩, ne0 :: nrest, 1, false⟩ := by
  simp only [pollStep, h, if_true, hls]
  rw [hne]

/-- Master invariants of one loop iteration: `last_modified` and the
`last_seen_log_entry` timestamp never move backward; every dispatched entry
sits at or after the boundary; the dispatched batch is a subsequence of the
observed entries, and inherits their newest-first ordering. -/
theorem pollStep_invariants (st : MonitorState) (obs : PollObs) :
    st.last_modified.key ≤ (pollStep st obs).state.last_modified.key ∧
    (∀ e0 e1 : LogEntry, st.last_seen_log_entry = some e0 →
      (pollStep st obs).state.last_seen_log_entry = some e1 →
      e0.timestamp.key ≤ e1.timestamp.key) ∧
    (∀ e0 e : LogEntry, st.last_seen_log_entry = some e0 →
      e ∈ (pollStep st obs).dispatched →
      e0.timestamp.key ≤ e.timestamp.key) ∧
    (pollStep st obs).dispatched.Sublist obs.entries ∧
    (obs.entries.Pairwise
        (fun a b => b.timestamp.key ≤ a.timestamp.key) →
      (pollStep st obs).dispatched.Pairwise
        (fun a b => b.timestamp.key ≤ a.timestamp.key)) := by
  rcases obs with ⟨mt, entries⟩
  rcases mt with _ | m
  · rw [pollStep_none]
    refine ⟨le_refl _, ?_, ?_, List.nil_sublist _, fun _ => List.Pairwise.nil⟩
    · intro e0 e1 h0 h1
      simp only at h0 h1
      rw [h0] at h1
      cases h1
      exact le_refl _
    · intro e0 e h0 he
      simp at he
  · by_cases h : st.last_modified.key < m.key
    · rcases entries with _ | ⟨e0', rest⟩
      · rw [pollStep_fresh_nil st m h]
        refine ⟨le_of_lt h, ?_, ?_, List.nil_sublist _, fun _ => List.Pairwise.nil⟩
        · intro e0 e1 h0 h1
          simp only at h0 h1
          rw [h0] at h1
          cases h1
          exact le_refl _
        · intro e0 e h0 he
          simp at he
      · rcases hls : st.last_seen_log_entry with _ | ls
        · rw [pollStep_initial st m e0' rest h hls]
          refine ⟨le_of_lt h, ?_, ?_, List.nil_sublist _, fun _ => List.Pairwise.nil⟩
          · intro e0 e1 h0 h1
            cases h0
          · intro e0 e h0 he
            simp at he
        · rcases hne : (e0' :: rest).filter
              (fun e => ls.timestamp.key ≤ e.timestamp.key) with _ | ⟨ne0, nrest⟩
          · rw [pollStep_dispatch_nil st m e0' rest ls h hls hne]
            refine ⟨le_of_lt h, ?_, ?_, List.nil_sublist _, fun _ => List.Pairwise.nil⟩
            · intro e0 e1 h0 h1
              cases h0
              simp only at h1
              cases h1
              exact le_refl _
            · intro e0 e h0 he
              simp at he
          · rw [pollStep_dispatch_cons st m e0' rest ls ne0 nrest h hls hne]
            have hsub : (ne0 :: nrest).Sublist (e0' :: rest) := by
              rw [← hne]
              exact List.filter_sublist _
            have hmemf : ∀ e ∈ ne0 :: nrest, ls.timestamp.key ≤ e.timestamp.key := by
              intro e he
              rw [← hne] at he
              have := List.of_mem_filter he
              exact of_decide_eq_true this
            refine ⟨le_of_lt h, ?_, ?_, hsub, ?_⟩
            · intro e0 e1 h0 h1
              cases h0
              simp only at h1
              cases h1
              exact hmemf ne0 (List.mem_cons_self _ _)
            · intro e0 e h0 he
              cases h0
              exact hmemf e he
            · intro hpw
              exact hpw.sublist hsub
    · rw [pollStep_stale st m entries h]
      refine ⟨le_refl _, ?_, ?_, List.nil_sublist _, fun _ => List.Pairwise.nil⟩
      · intro e0 e1 h0 h1
        simp only at h0 h1
        rw [h0] at h1
        cases h1
        exact le_refl _
      · intro e0 e h0 he
        simp at he

/-- Claim C3 counterexample: because the boundary comparison is `>=` (line
431), an entry is re-dispatched.  Concrete three-poll run: poll 1 loads
entry `a@10:00:00` (initial load, no dispatch, `lastSeenEntry := a`);
poll 2 sees `[b@10:00:01, a@10:00:00]` and dispatches BOTH — including `a`,
whose timestamp equals `lastSeenEntry`'s at the start of the poll; poll 3
sees `[c@10:00:02, b, a]` and dispatches `[c, b]` — so `b` is dispatched
in two different polls (2 and 3). -/
theorem c3_counterexample :
    ((main_loop true
        [⟨some ⟨2025, 1, 1, 10, 0, 0, 0⟩, [⟨⟨2025, 1, 1, 10, 0, 0, 0⟩, .INFO, "a"⟩]⟩,
         ⟨some ⟨2025, 1, 1, 10, 0, 1, 0⟩,
          [⟨⟨2025, 1, 1, 10, 0, 1, 0⟩, .INFO, "b"⟩,
           ⟨⟨2025, 1, 1, 10, 0, 0, 0⟩, .INFO, "a"⟩]⟩,
         ⟨some ⟨2025, 1, 1, 10, 0, 2, 0⟩,
          [⟨⟨2025, 1, 1, 10, 0, 2, 0⟩, .INFO, "c"⟩,
           ⟨⟨2025, 1, 1, 10, 0, 1, 0⟩, .INFO, "b"⟩,
           ⟨⟨2025, 1, 1, 10, 0, 0, 0⟩, .INFO, "a"⟩]⟩]).2.map
        PollOutcome.dispatched)
      = [[],
         [⟨⟨2025, 1, 1, 10, 0, 1, 0⟩, .INFO, "b"⟩,
          ⟨⟨2025, 1, 1, 10, 0, 0, 0⟩, .INFO, "a"⟩],
         [⟨⟨2025, 1, 1, 10, 0, 2, 0⟩, .INFO, "c"⟩,
          ⟨⟨2025, 1, 1, 10, 0, 1, 0⟩, .INFO, "b"⟩]] ∧
    (([[],
       [⟨⟨2025, 1, 1, 10, 0, 1, 0⟩, .INFO, "b"⟩,
        ⟨⟨2025, 1, 1, 10, 0, 0, 0⟩, .INFO, "a"⟩],
       [⟨⟨2025, 1, 1, 10, 0, 2, 0⟩, .INFO, "c"⟩,
        ⟨⟨2025, 1, 1, 10, 0, 1, 0⟩, .INFO, "b"⟩]] :
        List (List LogEntry)).countP
      (fun b => decide ((⟨⟨2025, 1, 1, 10, 0, 1, 0⟩, .INFO, "b"⟩ : LogEntry) ∈ b)))
      = 2 := by
  refine ⟨by decide, by decide⟩

/-- Claim C3 (corrected): across polls `lastModifiedSeen` and
`lastSeenEntry` indeed only move forward, and every dispatched entry lies
at or after the boundary; but because the boundary test is `>=`, an entry
whose timestamp equals `lastSeenEntry`'s at the start of a poll IS
dispatched again, so an entry can be dispatched in more than one poll. -/
theorem c3_forward_motion :
    (∀ (st : MonitorState) (obs : PollObs),
      st.last_modified.key ≤ (pollStep st obs).state.last_modified.key) ∧
    (∀ (st : MonitorState) (obs : PollObs) (e0 e1 : LogEntry),
      st.last_seen_log_entry = some e0 →
      (pollStep st obs).state.last_seen_log_entry = some e1 →
      e0.timestamp.key ≤ e1.timestamp.key) ∧
    (∀ (st : MonitorState) (obs : PollObs) (e0 e : LogEntry),
      st.last_seen_log_entry = some e0 →
      e ∈ (pollStep st obs).dispatched →
      e0.timestamp.key ≤ e.timestamp.key) :=
  ⟨fun st obs => (pollStep_invariants st obs).1,
   fun st obs => (pollStep_invariants st obs).2.1,
   fun st obs => (pollStep_invariants st obs).2.2.1⟩

/-- Closed witness for C3's corrected theorem at a concrete poll: with
`lastSeenEntry = a@10:00:00` and fresh entries `[b@10:00:01, a]`, the new
`lastSeenEntry` is `b` and its timestamp did not move backward. -/
theorem c3_witness :
    (⟨⟨2025, 1, 1, 10, 0, 0, 0⟩, .INFO, "a"⟩ : LogEntry).timestamp.key
      ≤ (⟨⟨2025, 1, 1, 10, 0, 1, 0⟩, .INFO, "b"⟩ : LogEntry).timestamp.key :=
  c3_forward_motion.2.1 ⟨epochDT, some ⟨⟨2025, 1, 1, 10, 0, 0, 0⟩, .INFO, "a"⟩, 0⟩
    ⟨some ⟨2025, 1, 1, 10, 0, 1, 0⟩,
      [⟨⟨2025, 1, 1, 10, 0, 1, 0⟩, .INFO, "b"⟩,
       ⟨⟨2025, 1, 1, 10, 0, 0, 0⟩, .INFO, "a"⟩]⟩
    ⟨⟨2025, 1, 1, 10, 0, 0, 0⟩, .INFO, "a"⟩
    ⟨⟨2025, 1, 1, 10, 0, 1, 0⟩, .INFO, "b"⟩
    rfl (by decide)

/-- Claim C4 counterexample: within the poll that sees
`[b@10:00:01, a@10:00:00]` past the boundary, the dispatch order is
`[b, a]` — the entry with the LATER timestamp is checked against the
trigger registry first, refuting oldest-to-newest processing. -/
theorem c4_counterexample :
    (((main_loop true
        [⟨some ⟨2025, 1, 1, 10, 0, 0, 0⟩, [⟨⟨2025, 1, 1, 10, 0, 0, 0⟩, .INFO, "a"⟩]⟩,
         ⟨some ⟨2025, 1, 1, 10, 0, 1, 0⟩,
          [⟨⟨2025, 1, 1, 10, 0, 1, 0⟩, .INFO, "b"⟩,
           ⟨⟨2025, 1, 1, 10, 0, 0, 0⟩, .INFO, "a"⟩]⟩]).2.map
        PollOutcome.dispatched))[1]?
      = some [⟨⟨2025, 1, 1, 10, 0, 1, 0⟩, .INFO, "b"⟩,
              ⟨⟨2025, 1, 1, 10, 0, 0, 0⟩, .INFO, "a"⟩] ∧
    (⟨⟨2025, 1, 1, 10, 0, 0, 0⟩, .INFO, "a"⟩ : LogEntry).timestamp.key
      < (⟨⟨2025, 1, 1, 10, 0, 1, 0⟩, .INFO, "b"⟩ : LogEntry).timestamp.key := by
  refine ⟨by decide, by decide⟩

/-- Claim C4 (corrected): within one loading pass the new entries are
processed in the order of the `parse_log` output — newest-to-oldest, not
oldest-to-newest: the dispatched batch is a subsequence of the observed
entries and inherits their newest-first (non-increasing timestamp)
ordering. -/
theorem c4_dispatch_newest_first :
    (∀ (st : MonitorState) (obs : PollObs),
      (pollStep st obs).dispatched.Sublist obs.entries) ∧
    (∀ (st : MonitorState) (obs : PollObs),
      obs.entries.Pairwise
          (fun a b => b.timestamp.key ≤ a.timestamp.key) →
      (pollStep st obs).dispatched.Pairwise
          (fun a b => b.timestamp.key ≤ a.timestamp.key)) :=
  ⟨fun st obs => (pollStep_invariants st obs).2.2.2.1,
   fun st obs => (pollStep_invariants st obs).2.2.2.2⟩

/-- Closed witness for C4's corrected theorem at the concrete poll of the
counterexample: the dispatched batch `[b, a]` is non-increasing by
timestamp. -/
theorem c4_witness :
    (pollStep ⟨epochDT, some ⟨⟨2025, 1, 1, 10, 0, 0, 0⟩, .INFO, "a"⟩, 0⟩
        ⟨some ⟨2025, 1, 1, 10, 0, 1, 0⟩,
          [⟨⟨2025, 1, 1, 10, 0, 1, 0⟩, .INFO, "b"⟩,
           ⟨⟨2025, 1, 1, 10, 0, 0, 0⟩, .INFO, "a"⟩]⟩).dispatched.Pairwise
      (fun a b => b.timestamp.key ≤ a.timestamp.key) :=
  c4_dispatch_newest_first.2 ⟨epochDT, some ⟨⟨2025, 1, 1, 10, 0, 0, 0⟩, .INFO, "a"⟩, 0⟩
    ⟨some ⟨2025, 1, 1, 10, 0, 1, 0⟩,
      [⟨⟨2025, 1, 1, 10, 0, 1, 0⟩, .INFO, "b"⟩,
       ⟨⟨2025, 1, 1, 10, 0, 0, 0⟩, .INFO, "a"⟩]⟩
    (by decide)

/-- The reverse scan of `parse_log` is the longest prefix of the parsed
(reversed) lines whose timestamps are not older than the cutoff. -/
theorem parseLoop_eq_takeWhile (cutoff : DateTime) :
    ∀ l : List String,
      parseLoop cutoff l
        = (l.filterMap log_entry_from_line).takeWhile
            (fun e => !decide (e.timestamp.key < cutoff.key)) := by
  intro l
  induction l with
  | nil => rfl
  | cons line rest ih =>
    simp only [parseLoop, List.filterMap_cons]
    rcases h : log_entry_from_line line with _ | e
    · exact ih
    · simp only [List.takeWhile_cons]
      by_cases hc : e.timestamp.key < cutoff.key
      · simp [hc]
      · simp only [hc]
        simp only [decide_eq_true_eq] at ih ⊢
        simp [ih]

/-- Claim C7 counterexample: on input lines that are NOT chronologically
ordered (the file holds `b@10:00` before `a@09:00`), `parse_log` returns
`[a@09:00, b@10:00]` — an increasing-timestamp list, refuting the claim
that the result is in non-increasing (newest-first) order for every list
of input lines. -/
theorem c7_counterexample :
    parse_log
        ["2025-01-01 10:00:00,000 INFO b", "2025-01-01 09:00:00,000 INFO a"]
        ⟨2025, 1, 1, 8, 0, 0, 0⟩
      = [⟨⟨2025, 1, 1, 9, 0, 0, 0⟩, .INFO, "a"⟩,
         ⟨⟨2025, 1, 1, 10, 0, 0, 0⟩, .INFO, "b"⟩] ∧
    ¬ ([⟨⟨2025, 1, 1, 9, 0, 0, 0⟩, .INFO, "a"⟩,
        ⟨⟨2025, 1, 1, 10, 0, 0, 0⟩, .INFO, "b"⟩] : List LogEntry).Pairwise
        (fun a b => b.timestamp.key ≤ a.timestamp.key) := by
  refine ⟨by decide, by decide⟩

/-- Claim C7 (corrected): the windowed reader never returns an entry older
than the cutoff, for every list of input lines and every cutoff; the
non-increasing (newest-first) output order holds under the log's
append-only assumption, i.e. when the lines that parse are in
non-decreasing timestamp order as they appear in the file — not for every
list of input lines. -/
theorem c7_window :
    (∀ (lines : List String) (cutoff : DateTime) (e : LogEntry),
      e ∈ parse_log lines cutoff → cutoff.key ≤ e.timestamp.key) ∧
    (∀ (lines : List String) (cutoff : DateTime),
      (lines.filterMap log_entry_from_line).Pairwise
          (fun a b => a.timestamp.key ≤ b.timestamp.key) →
      (parse_log lines cutoff).Pairwise
          (fun a b => b.timestamp.key ≤ a.timestamp.key)) := by
  constructor
  · intro lines cutoff e he
    unfold parse_log at he
    rw [parseLoop_eq_takeWhile] at he
    have := List.mem_takeWhile_imp he
    simp only [Bool.not_eq_true', decide_eq_false_iff_not, Nat.not_lt] at this
    exact this
  · intro lines cutoff hpw
    unfold parse_log
    rw [parseLoop_eq_takeWhile]
    refine List.Pairwise.sublist (List.takeWhile_sublist _) ?_
    rw [List.filterMap_reverse]
    exact List.pairwise_reverse.mpr hpw

/-- Closed witness for C7's corrected theorem: with chronologically ordered
lines, the parsed entry `a@09:00` is within the 2-hour window and the
output is non-increasing by timestamp. -/
theorem c7_witness :
    (⟨2025, 1, 1, 8, 0, 0, 0⟩ : DateTime).key
      ≤ (⟨⟨2025, 1, 1, 9, 0, 0, 0⟩, .INFO, "a"⟩ : LogEntry).timestamp.key ∧
    (parse_log
        ["2025-01-01 09:00:00,000 INFO a", "2025-01-01 10:00:00,000 INFO b"]
        ⟨2025, 1, 1, 8, 0, 0, 0⟩).Pairwise
      (fun a b => b.timestamp.key ≤ a.timestamp.key) :=
  ⟨c7_window.1
      ["2025-01-01 10:00:00,000 INFO b", "2025-01-01 09:00:00,000 INFO a"]
      ⟨2025, 1, 1, 8, 0, 0, 0⟩
      ⟨⟨2025, 1, 1, 9, 0, 0, 0⟩, .INFO, "a"⟩ (by decide),
   c7_window.2
      ["2025-01-01 09:00:00,000 INFO a", "2025-01-01 10:00:00,000 INFO b"]
      ⟨2025, 1, 1, 8, 0, 0, 0⟩ (by decide)⟩

/-- Claim C9 counterexample: the line `2025-5-6 9:3:4,5 INFO hello` has four
space-separated segments but its concatenated date+time `2025-5-6 9:3:4,5`
does NOT match the fixed format `YYYY-MM-DD HH:MM:SS,mmm`; the claim
therefore predicts a parse error, yet `log_entry_from_line` succeeds —
`strptime` accepts unpadded 1-2 digit fields and 1-6 fraction digits. -/
theorem c9_counterexample :
    (log_entry_from_line "2025-5-6 9:3:4,5 INFO hello").isSome = true ∧
    specFixedFormat "2025-5-6 9:3:4,5" = false ∧
    (pySplit "2025-5-6 9:3:4,5 INFO hello".data 3).length = 4 := by
  refine ⟨by decide, by decide, by decide⟩

/-- Claim C9 (corrected): `log_entry_from_line` fails exactly when the line
has fewer than four space-separated segments or the concatenated date+time
is rejected by `strptime` with `'%Y-%m-%d %H:%M:%S,%f'` (which is more
lenient than the fixed `YYYY-MM-DD HH:MM:SS,mmm` shape); it never fails on
account of the level token: `SEVERE` maps to `ERROR` and any other token
whose upper-casing is not a member name falls back to `INFO`. -/
theorem c9_parse_error_characterization :
    (∀ line : String,
      log_entry_from_line line = none ↔
        ((pySplit line.data 3).length < 4 ∨
          parse_timestamp
            (String.mk ((pySplit line.data 3).getD 0 []) ++ " "
              ++ String.mk ((pySplit line.data 3).getD 1 [])) = none)) ∧
    LogLevel.from_string "SEVERE" = .ERROR ∧
    (∀ s : String, s ≠ "SEVERE" → LogLevel.fromName (pyUpper s) = none →
      LogLevel.from_string s = .INFO) := by
  refine ⟨?_, by decide, ?_⟩
  · intro line
    by_cases hlen : (pySplit line.data 3).length < 4
    · simp [log_entry_from_line, hlen]
    · simp only [log_entry_from_line, hlen, if_false]
      rcases hts : parse_timestamp
          (String.mk ((pySplit line.data 3).getD 0 []) ++ " "
            ++ String.mk ((pySplit line.data 3).getD 1 [])) with _ | t
      all_goals simp only [List.getD, List.get?_eq_getElem?] at hts
      · simp [LogEntry.mk?, hts, hlen]
      · simp [LogEntry.mk?, hts, hlen]
  · intro s h1 h2
    unfold LogLevel.from_string
    rw [if_neg h1, h2]

/-- Closed witness for C9's corrected theorem: the characterization applied
to a three-segment line (which fails), and the INFO fallback applied to the
unrecognized level token `TRACE`. -/
theorem c9_witness :
    (log_entry_from_line "one two three" = none ↔
      ((pySplit "one two three".data 3).length < 4 ∨
        parse_timestamp
          (String.mk ((pySplit "one two three".data 3).getD 0 []) ++ " "
            ++ String.mk ((pySplit "one two three".data 3).getD 1 [])) = none)) ∧
    LogLevel.from_string "TRACE" = .INFO :=
  ⟨c9_parse_error_characterization.1 "one two three",
   c9_parse_error_characterization.2.2 "TRACE" (by decide) (by decide)⟩

/-! ## Helper lemmas for the parse/format round trip -/

/-- Every `dChar` output is a decimal digit character. -/
theorem isDigitC_dChar (d : Nat) : isDigitC (dChar d) = true := by
  unfold dChar
  split <;> rfl

/-- On values below ten, `dVal` inverts `dChar`. -/
theorem dVal_dChar (d : Nat) (h : d < 10) : dVal (dChar d) = d := by
  interval_cases d <;> rfl

/-- A digit character is not a space. -/
theorem digit_ne_space (c : Char) (h : isDigitC c = true) : c ≠ ' ' := by
  intro he
  subst he
  exact absurd h (by decide)

/-- The `dChar` outputs are not whitespace. -/
theorem isSpaceC_dChar (d : Nat) : isSpaceC (dChar d) = false := by
  unfold dChar
  split <;> rfl

/-- The `takeDigits` walks through an all-digit prefix. -/
theorem takeDigits_append (a b : List Char)
    (ha : ∀ c ∈ a, isDigitC c = true) :
    takeDigits (a ++ b) = (a ++ (takeDigits b).1, (takeDigits b).2) := by
  induction a with
  | nil => simp
  | cons c cs ih =>
    have hc := ha c (List.mem_cons_self c cs)
    simp only [List.cons_append, takeDigits, hc, if_true, List.append_eq]
    rw [ih (fun x hx => ha x (List.mem_cons_of_mem c hx))]

/-- The `takeDigits` stops at a non-digit head. -/
theorem takeDigits_cons_not (c : Char) (cs : List Char)
    (h : isDigitC c = false) :
    takeDigits (c :: cs) = ([], c :: cs) := by
  simp [takeDigits, h]

/-- The `breakAtSpace` finds the first space after a space-free prefix. -/
theorem breakAtSpace_append (a b : List Char) (ha : ∀ c ∈ a, c ≠ ' ') :
    breakAtSpace (a ++ ' ' :: b) = some (a, b) := by
  induction a with
  | nil => simp [breakAtSpace]
  | cons c cs ih =>
    have hc := ha c (List.mem_cons_self c cs)
    simp only [List.cons_append, breakAtSpace, hc, if_false, List.append_eq]
    rw [ih (fun x hx => ha x (List.mem_cons_of_mem c hx))]

/-- The `\s+` step consumes a single space not followed by whitespace. -/
theorem takeSpaces1_single (c : Char) (r : List Char) (h : isSpaceC c = false) :
    takeSpaces1 (' ' :: c :: r) = some (c :: r) := by
  simp [takeSpaces1, List.dropWhile_cons, h, show isSpaceC ' ' = true from rfl]

/-- The digits of `pad2` / `pad3` / `pad4`. -/
theorem pad2_digits (n : Nat) : ∀ c ∈ pad2 n, isDigitC c = true := by
  intro c hc
  simp only [pad2, List.mem_cons, List.not_mem_nil, or_false] at hc
  rcases hc with h | h <;> subst h <;> exact isDigitC_dChar _

/-- The digits of `pad3`. -/
theorem pad3_digits (n : Nat) : ∀ c ∈ pad3 n, isDigitC c = true := by
  intro c hc
  simp only [pad3, List.mem_cons, List.not_mem_nil, or_false] at hc
  rcases hc with h | h | h <;> subst h <;> exact isDigitC_dChar _

/-- The digits of `pad4`. -/
theorem pad4_digits (n : Nat) : ∀ c ∈ pad4 n, isDigitC c = true := by
  intro c hc
  simp only [pad4, List.mem_cons, List.not_mem_nil, or_false] at hc
  rcases hc with h | h | h | h <;> subst h <;> exact isDigitC_dChar _

/-- The `digitsToNat` inverts `pad2` below 100. -/
theorem digitsToNat_pad2 (n : Nat) (h : n < 100) : digitsToNat (pad2 n) = n := by
  simp only [pad2, digitsToNat, List.foldl]
  rw [dVal_dChar _ (by omega), dVal_dChar _ (by omega)]
  omega

/-- The `digitsToNat` inverts `pad3` below 1000. -/
theorem digitsToNat_pad3 (n : Nat) (h : n < 1000) : digitsToNat (pad3 n) = n := by
  simp only [pad3, digitsToNat, List.foldl]
  rw [dVal_dChar _ (by omega), dVal_dChar _ (by omega), dVal_dChar _ (by omega)]
  omega

/-- The `digitsToNat` inverts `pad4` below 10000. -/
theorem digitsToNat_pad4 (n : Nat) (h : n < 10000) :
    digitsToNat (pad4 n) = n := by
  simp only [pad4, digitsToNat, List.foldl]
  rw [dVal_dChar _ (by omega), dVal_dChar _ (by omega), dVal_dChar _ (by omega),
    dVal_dChar _ (by omega)]
  omega


/-- The `strptime` on a canonical `YYYY-MM-DD HH:MM:SS,mmm` rendering of valid
datetime fields recovers exactly those fields (milliseconds scaled to
microseconds). -/
theorem parse_timestamp_canonical (y mo d h mi s ms : Nat)
    (hy1 : 1 ≤ y) (hy : y ≤ 9999) (hmo1 : 1 ≤ mo) (hmo : mo ≤ 12)
    (hd1 : 1 ≤ d) (hd : d ≤ daysInMonth y mo) (hh : h ≤ 23) (hmi : mi ≤ 59)
    (hs : s ≤ 59) (hms : ms ≤ 999) :
    parse_timestamp (String.mk (pad4 y ++ ('-' :: (pad2 mo ++ ('-' :: (pad2 d ++ (' ' :: (pad2 h ++ (':' :: (pad2 mi ++ (':' :: (pad2 s ++ (',' :: (pad3 ms))))))))))))))
      = some ⟨y, mo, d, h, mi, s, ms * 1000⟩ := by
  have e0 : takeDigits (pad4 y ++ ('-' :: (pad2 mo ++ ('-' :: (pad2 d ++ (' ' :: (pad2 h ++ (':' :: (pad2 mi ++ (':' :: (pad2 s ++ (',' :: (pad3 ms)))))))))))))
      = (pad4 y, '-' :: (pad2 mo ++ ('-' :: (pad2 d ++ (' ' :: (pad2 h ++ (':' :: (pad2 mi ++ (':' :: (pad2 s ++ (',' :: (pad3 ms)))))))))))) := by
    rw [takeDigits_append _ _ (pad4_digits y), takeDigits_cons_not _ _ (by decide)]
    simp
  have e1 : takeDigits (pad2 mo ++ ('-' :: (pad2 d ++ (' ' :: (pad2 h ++ (':' :: (pad2 mi ++ (':' :: (pad2 s ++ (',' :: (pad3 ms)))))))))))
      = (pad2 mo, '-' :: (pad2 d ++ (' ' :: (pad2 h ++ (':' :: (pad2 mi ++ (':' :: (pad2 s ++ (',' :: (pad3 ms))))))))))  := by
    rw [takeDigits_append _ _ (pad2_digits mo), takeDigits_cons_not _ _ (by decide)]
    simp
  have hdm : ∀ l : List Char, (String.mk l).data = l := fun l => rfl
  have e2 : takeDigits (pad2 d ++ (' ' :: (pad2 h ++ (':' :: (pad2 mi ++ (':' :: (pad2 s ++ (',' :: (pad3 ms)))))))))
      = (pad2 d, ' ' :: (pad2 h ++ (':' :: (pad2 mi ++ (':' :: (pad2 s ++ (',' :: (pad3 ms)))))))) := by
    rw [takeDigits_append _ _ (pad2_digits d), takeDigits_cons_not _ _ (by decide)]
    simp
  have espace : takeSpaces1 (' ' :: (pad2 h ++ (':' :: (pad2 mi ++ (':' :: (pad2 s ++ (',' :: (pad3 ms))))))))
      = some (pad2 h ++ (':' :: (pad2 mi ++ (':' :: (pad2 s ++ (',' :: (pad3 ms))))))) := by
    simp only [pad2, List.cons_append]
    exact takeSpaces1_single _ _ (isSpaceC_dChar _)
  have e3 : takeDigits (pad2 h ++ (':' :: (pad2 mi ++ (':' :: (pad2 s ++ (',' :: (pad3 ms)))))))
      = (pad2 h, ':' :: (pad2 mi ++ (':' :: (pad2 s ++ (',' :: (pad3 ms)))))) := by
    rw [takeDigits_append _ _ (pad2_digits h), takeDigits_cons_not _ _ (by decide)]
    simp
  have e4 : takeDigits (pad2 mi ++ (':' :: (pad2 s ++ (',' :: (pad3 ms)))))
      = (pad2 mi, ':' :: (pad2 s ++ (',' :: (pad3 ms)))) := by
    rw [takeDigits_append _ _ (pad2_digits mi), takeDigits_cons_not _ _ (by decide)]
    simp
  have e5 : takeDigits (pad2 s ++ (',' :: (pad3 ms))) = (pad2 s, ',' :: (pad3 ms)) := by
    rw [takeDigits_append _ _ (pad2_digits s), takeDigits_cons_not _ _ (by decide)]
    simp
  have e6 : takeDigits (pad3 ms) = (pad3 ms, []) := by
    have := takeDigits_append (pad3 ms) [] (pad3_digits ms)
    simpa using this
  have dig4 : digitsToNat (pad4 y) = y := digitsToNat_pad4 y (by omega)
  have digmo : digitsToNat (pad2 mo) = mo := digitsToNat_pad2 mo (by omega)
  have hdim : daysInMonth y mo ≤ 31 := by
    unfold daysInMonth
    split
    · split <;> omega
    · split <;> omega
  have digd : digitsToNat (pad2 d) = d := digitsToNat_pad2 d (by omega)
  have digh : digitsToNat (pad2 h) = h := digitsToNat_pad2 h (by omega)
  have digmi : digitsToNat (pad2 mi) = mi := digitsToNat_pad2 mi (by omega)
  have digs : digitsToNat (pad2 s) = s := digitsToNat_pad2 s (by omega)
  have digms : digitsToNat (pad3 ms) = ms := digitsToNat_pad3 ms (by omega)
  have l2 : ∀ n : Nat, (pad2 n).length = 2 := fun n => rfl
  have l3 : ∀ n : Nat, (pad3 n).length = 3 := fun n => rfl
  have l4 : ∀ n : Nat, (pad4 n).length = 4 := fun n => rfl
  simp [parse_timestamp, hdm, e0, e1, e2, e3, e4, e5, e6, espace, expectChar,
    dig4, digmo, digd, digh, digmi, digs, digms, l2, l3, l4,
    hy1, hmo1, hmo, hd1, hd, hh, hmi, hs]

/-- The `%f` on a whole-millisecond microsecond count prints the three
millisecond digits followed by three zeros. -/
theorem pad6_thousand (ms : Nat) : pad6 (ms * 1000) = pad3 ms ++ ['0', '0', '0'] := by
  have h1 : ms * 1000 / 100000 % 10 = ms / 100 % 10 := by omega
  have h2 : ms * 1000 / 10000 % 10 = ms / 10 % 10 := by omega
  have h3 : ms * 1000 / 1000 % 10 = ms % 10 := by omega
  have h4 : ms * 1000 / 100 % 10 = 0 := by omega
  have h5 : ms * 1000 / 10 % 10 = 0 := by omega
  have h6 : ms * 1000 % 10 = 0 := by omega
  simp [pad6, pad3, h1, h2, h3, h4, h5, h6, dChar]

/-- Python's `[:-3]` peels off a three-character suffix. -/
theorem dropLast3_append (a : List Char) (c1 c2 c3 : Char) :
    dropLast3 (a ++ [c1, c2, c3]) = a := by
  simp only [dropLast3, List.length_append, List.length_cons, List.length_nil]
  rw [List.take_left' (by omega)]

/-- Space-freeness distributes over append. -/
theorem no_space_append (a b : List Char) (ha : ∀ c ∈ a, c ≠ ' ')
    (hb : ∀ c ∈ b, c ≠ ' ') : ∀ c ∈ a ++ b, c ≠ ' ' := by
  intro c hc
  rcases List.mem_append.mp hc with h | h
  · exact ha c h
  · exact hb c h

/-- Space-freeness distributes over cons. -/
theorem no_space_cons (x : Char) (b : List Char) (hx : x ≠ ' ')
    (hb : ∀ c ∈ b, c ≠ ' ') : ∀ c ∈ x :: b, c ≠ ' ' := by
  intro c hc
  rcases List.mem_cons.mp hc with h | h
  · rw [h]; exact hx
  · exact hb c h

/-- The zero-padded fields contain no space. -/
theorem pad2_no_space (n : Nat) : ∀ c ∈ pad2 n, c ≠ ' ' :=
  fun c hc => digit_ne_space c (pad2_digits n c hc)

/-- The `pad3` contains no space. -/
theorem pad3_no_space (n : Nat) : ∀ c ∈ pad3 n, c ≠ ' ' :=
  fun c hc => digit_ne_space c (pad3_digits n c hc)

/-- The `pad4` contains no space. -/
theorem pad4_no_space (n : Nat) : ∀ c ∈ pad4 n, c ≠ ' ' :=
  fun c hc => digit_ne_space c (pad4_digits n c hc)

/-- A `LogLevel` value string contains no space. -/
theorem level_no_space (lv : LogLevel) : ∀ c ∈ lv.value.data, c ≠ ' ' := by
  cases lv <;> decide

/-- A `LogLevel` value string is nonempty. -/
theorem level_ne_empty (lv : LogLevel) : lv.value ≠ "" := by
  cases lv <;> decide

/-- Parsing a canonical level token recovers the level. -/
theorem from_string_value (lv : LogLevel) :
    LogLevel.from_string lv.value = lv := by
  cases lv <;> decide

/-- The `breakAtSpace` steps over a single non-space head. -/
theorem breakAtSpace_cons_ne (x : Char) (l : List Char) (hx : x ≠ ' ') :
    breakAtSpace (x :: l)
      = (breakAtSpace l).map (fun p => (x :: p.1, p.2)) := by
  simp only [breakAtSpace, hx, if_false]
  rcases breakAtSpace l with _ | p <;> simp

/-- The `breakAtSpace` skips a space-free prefix compositionally. -/
theorem breakAtSpace_skip (a : List Char) (l : List Char)
    (ha : ∀ c ∈ a, c ≠ ' ') :
    breakAtSpace (a ++ l)
      = (breakAtSpace l).map (fun p => (a ++ p.1, p.2)) := by
  induction a with
  | nil =>
    simp only [List.nil_append]
    rcases breakAtSpace l with _ | p <;> simp
  | cons c cs ih =>
    have hc := ha c (List.mem_cons_self c cs)
    rw [List.cons_append, breakAtSpace_cons_ne c (cs ++ l) hc,
      ih (fun x hx => ha x (List.mem_cons_of_mem c hx))]
    rcases breakAtSpace l with _ | p <;> simp

/-- The `breakAtSpace` splits at an immediate space. -/
theorem breakAtSpace_space (l : List Char) :
    breakAtSpace (' ' :: l) = some ([], l) := by
  simp [breakAtSpace]

/-- Splitting a canonical log line with `split(' ', 3)` yields exactly the
date, the time, the level token and the message. -/
theorem pySplit_mkLogLine (y mo d h mi s ms : Nat) (level : LogLevel) (message : String) :
    pySplit (mkLogLine y mo d h mi s ms level message).data 3
      = [pad4 y ++ ('-' :: (pad2 mo ++ ('-' :: pad2 d))),
         pad2 h ++ (':' :: (pad2 mi ++ (':' :: (pad2 s ++ (',' :: pad3 ms))))),
         level.value.data, message.data] := by
  have hdm : ∀ l : List Char, (String.mk l).data = l := fun l => rfl
  have hsp : (" " : String).data = [' '] := rfl
  have hdata : (mkLogLine y mo d h mi s ms level message).data
      = pad4 y ++ ('-' :: (pad2 mo ++ ('-' :: (pad2 d ++ (' ' :: (pad2 h ++ (':' :: (pad2 mi ++ (':' :: (pad2 s ++ (',' :: (pad3 ms ++ (' ' :: (level.value.data ++ (' ' :: message.data))))))))))))))) := by
    simp [mkLogLine, hdm, hsp, List.append_assoc]
  have b1 : breakAtSpace (pad4 y ++ ('-' :: (pad2 mo ++ ('-' :: (pad2 d ++ (' ' :: (pad2 h ++ (':' :: (pad2 mi ++ (':' :: (pad2 s ++ (',' :: (pad3 ms ++ (' ' :: (level.value.data ++ (' ' :: message.data))))))))))))))))
      = some (pad4 y ++ ('-' :: (pad2 mo ++ ('-' :: pad2 d))), pad2 h ++ (':' :: (pad2 mi ++ (':' :: (pad2 s ++ (',' :: (pad3 ms ++ (' ' :: (level.value.data ++ (' ' :: message.data)))))))))) := by
    rw [breakAtSpace_skip _ _ (pad4_no_space y),
      breakAtSpace_cons_ne _ _ (by decide),
      breakAtSpace_skip _ _ (pad2_no_space mo),
      breakAtSpace_cons_ne _ _ (by decide),
      breakAtSpace_skip _ _ (pad2_no_space d),
      breakAtSpace_space]
    simp
  have b2 : breakAtSpace (pad2 h ++ (':' :: (pad2 mi ++ (':' :: (pad2 s ++ (',' :: (pad3 ms ++ (' ' :: (level.value.data ++ (' ' :: message.data))))))))))
      = some (pad2 h ++ (':' :: (pad2 mi ++ (':' :: (pad2 s ++ (',' :: pad3 ms))))), level.value.data ++ (' ' :: message.data)) := by
    rw [breakAtSpace_skip _ _ (pad2_no_space h),
      breakAtSpace_cons_ne _ _ (by decide),
      breakAtSpace_skip _ _ (pad2_no_space mi),
      breakAtSpace_cons_ne _ _ (by decide),
      breakAtSpace_skip _ _ (pad2_no_space s),
      breakAtSpace_cons_ne _ _ (by decide),
      breakAtSpace_skip _ _ (pad3_no_space ms),
      breakAtSpace_space]
    simp
  have b3 : breakAtSpace (level.value.data ++ (' ' :: message.data))
      = some (level.value.data, message.data) :=
    breakAtSpace_append _ _ (level_no_space level)
  rw [hdata]
  simp only [pySplit, b1, b2, b3]

/-- The `strftime`-then-`[:-3]` on a whole-millisecond timestamp prints the
canonical `YYYY-MM-DD HH:MM:SS,mmm` rendering. -/
theorem format_timestamp_trunc (y mo d h mi s ms : Nat) :
    dropLast3 (format_timestamp ⟨y, mo, d, h, mi, s, ms * 1000⟩)
      = pad4 y ++ ('-' :: (pad2 mo ++ ('-' :: (pad2 d ++ (' ' :: (pad2 h ++ (':' :: (pad2 mi ++ (':' :: (pad2 s ++ (',' :: (pad3 ms)))))))))))) := by
  have hfmt : format_timestamp ⟨y, mo, d, h, mi, s, ms * 1000⟩
      = (pad4 y ++ ('-' :: (pad2 mo ++ ('-' :: (pad2 d ++ (' ' :: (pad2 h ++ (':' :: (pad2 mi ++ (':' :: (pad2 s ++ (',' :: (pad3 ms))))))))))))) ++ ['0', '0', '0'] := by
    simp [format_timestamp, pad6_thousand, List.append_assoc]
  rw [hfmt, dropLast3_append]

/-- Claim C8 (confirmed): for every well-formed line in the fixed format
`YYYY-MM-DD HH:MM:SS,mmm LEVEL message` — zero-padded valid datetime
fields (year 1000-9999: sub-millennium years format platform-dependently
in CPython and are out of scope), a canonical level token, an arbitrary
message — parsing the line and formatting the entry back reproduces the
line exactly: the level token and message are preserved verbatim and the
timestamp round-trips at millisecond precision. -/
theorem c8_roundtrip (y mo d h mi s ms : Nat) (level : LogLevel)
    (message : String) (hy1 : 1000 ≤ y) (hy : y ≤ 9999) (hmo1 : 1 ≤ mo)
    (hmo : mo ≤ 12) (hd1 : 1 ≤ d) (hd : d ≤ daysInMonth y mo) (hh : h ≤ 23)
    (hmi : mi ≤ 59) (hs : s ≤ 59) (hms : ms ≤ 999) :
    log_entry_from_line (mkLogLine y mo d h mi s ms level message)
      = some ⟨⟨y, mo, d, h, mi, s, ms * 1000⟩, level, message⟩ ∧
    LogEntry.str ⟨⟨y, mo, d, h, mi, s, ms * 1000⟩, level, message⟩
      = mkLogLine y mo d h mi s ms level message := by
  constructor
  · have hsplit := pySplit_mkLogLine y mo d h mi s ms level message
    have hglue : String.mk (pad4 y ++ ('-' :: (pad2 mo ++ ('-' :: pad2 d)))) ++ " " ++ String.mk (pad2 h ++ (':' :: (pad2 mi ++ (':' :: (pad2 s ++ (',' :: pad3 ms))))))
        = String.mk (pad4 y ++ ('-' :: (pad2 mo ++ ('-' :: (pad2 d ++ (' ' :: (pad2 h ++ (':' :: (pad2 mi ++ (':' :: (pad2 s ++ (',' :: (pad3 ms))))))))))))) := by
      apply String.ext
      simp [List.append_assoc]
    simp only [log_entry_from_line, hsplit]
    simp only [List.length_cons, List.length_nil, List.getD, List.get?_eq_getElem?,
      List.getElem?_cons_zero, List.getElem?_cons_succ, Option.getD_some]
    rw [if_neg (by omega)]
    simp only [LogEntry.mk?, hglue,
      parse_timestamp_canonical y mo d h mi s ms (by omega) hy hmo1 hmo hd1 hd hh hmi hs hms]
    have hlv : String.mk level.value.data = level.value := rfl
    have hmsg : String.mk message.data = message := rfl
    rw [hlv, hmsg]
    simp [level_ne_empty, from_string_value]
  · show String.mk (dropLast3 (format_timestamp ⟨y, mo, d, h, mi, s, ms * 1000⟩))
        ++ " " ++ level.value ++ " " ++ message = mkLogLine y mo d h mi s ms level message
    rw [format_timestamp_trunc]
    rfl

/-- Closed witness for C8 at the example line from the source's docstring:
`2025-05-26 09:33:40,383 INFO JS API: getNativeVersion returned: 2023.2.208`. -/
theorem c8_witness :
    log_entry_from_line
        (mkLogLine 2025 5 26 9 33 40 383 .INFO
          "JS API: getNativeVersion returned: 2023.2.208")
      = some ⟨⟨2025, 5, 26, 9, 33, 40, 383 * 1000⟩, .INFO,
              "JS API: getNativeVersion returned: 2023.2.208"⟩ ∧
    LogEntry.str ⟨⟨2025, 5, 26, 9, 33, 40, 383 * 1000⟩, .INFO,
        "JS API: getNativeVersion returned: 2023.2.208"⟩
      = mkLogLine 2025 5 26 9 33 40 383 .INFO
          "JS API: getNativeVersion returned: 2023.2.208" :=
  c8_roundtrip 2025 5 26 9 33 40 383 .INFO
    "JS API: getNativeVersion returned: 2023.2.208"
    (by decide) (by decide) (by decide) (by decide) (by decide) (by decide)
    (by decide) (by decide) (by decide) (by decide)
